import Mathlib

/-!
Verification development for the liffile repository: a reader for a
microscope-vendor container format holding multi-dimensional images plus
hierarchical metadata.  The repository's core module is not present in the
source tree (only its test suite and packaging script are), so the core
pipeline — block directory scanner, XML descriptor tree, dimension resolver,
memory block binder, array materializer, attribute/coordinate exporter — is
modelled from the specification document, component by component.  Concrete
instances mirror the data asserted by the test suite.
-/

namespace Liffile

/-- Modelled from the spec: the fixed vocabulary of axis identifiers used by
the Dimension & Scan-Mode Resolver (spatial X/Y/Z, time T, channel C,
loop/record L, stage-position M or N, excitation wavelength, emission
wavelength, sample-per-pixel S). -/
inductive Dim where
  | X | Y | Z | T | C | L | M | N | Exc | Emi | S
deriving DecidableEq, Repr

/-- Modelled from the spec: one declared dimension of an image, carrying an
axis identifier, element count, physical origin and length, and unit. -/
structure DimensionDesc where
  dim : Dim
  size : Nat
  origin : Rat
  length : Rat
  unit : String
deriving DecidableEq, Repr

/-- Modelled from the spec: the coordinate function for a linear axis maps
integer index `i` in `[0, size)` to `origin + i * (length / max (size-1) 1)`. -/
def DimensionDesc.coord (a : DimensionDesc) (i : Nat) : Rat :=
  a.origin + i * (a.length / (max (a.size - 1) 1 : Nat))

/-- Modelled from the spec: the per-axis coordinate array. -/
def DimensionDesc.coordArray (a : DimensionDesc) : List Rat :=
  (List.range a.size).map a.coord

/-- Modelled from the spec: a raw memory block scanned from the container:
identifier plus its payload bytes; its directory length is the payload
length recorded during the single scan pass. -/
structure MemoryBlock where
  id : String
  payload : List Nat
deriving DecidableEq, Repr

/-- Byte length of a memory block as recorded in the block directory. -/
def MemoryBlock.size (b : MemoryBlock) : Nat := b.payload.length

/-- Modelled from the spec: reading a memory block is a pure, repeatable
operation returning the block's bytes. -/
def MemoryBlock.read (b : MemoryBlock) : List Nat := b.payload

/-- Modelled from the spec: the error taxonomy — FormatError (not a
recognized container), StructureError (missing block or size mismatch),
ValueError (invalid caller configuration), NotSupported (unimplemented
access mode). -/
inductive LifError where
  | formatError (msg : String)
  | structureError (msg : String)
  | valueError (msg : String)
  | notSupported (msg : String)
deriving DecidableEq, Repr

/-- Modelled from the spec: the structured metadata of one image node, as
extracted from its dimension-description list: declared axes in metadata
(acquisition/storage) order, declared bit depth, storage element byte
width, samples per pixel, bound memory-block identifiers, and the absolute
timestamp sequence. -/
structure ImageMeta where
  name : String
  path : String
  axes : List DimensionDesc
  bits : Nat
  itemsize : Nat
  spp : Nat
  blockIds : List String
  timestamps : List Int
deriving DecidableEq, Repr

/-- Modelled from the spec: total byte size demanded by an image's declared
geometry: product of axis sizes times samples-per-pixel times element byte
width. -/
def metaNbytes (m : ImageMeta) : Nat :=
  (m.axes.map (·.size)).prod * m.spp * m.itemsize

/-- Modelled from the spec: the squeeze mode removes axes of size 1 from a
sequence, except that the last two (innermost, spatial) axes are never
removed. -/
def squeezeAxes (axes : List DimensionDesc) : List DimensionDesc :=
  (axes.take (axes.length - 2)).filter (fun a => decide (1 < a.size))
    ++ axes.drop (axes.length - 2)

/-- Modelled from the spec: RGB/multi-sample acquisitions add a trailing
samples axis S sized by the declared sample count. -/
def sampleAxis (m : ImageMeta) : List DimensionDesc :=
  if 1 < m.spp then [⟨Dim.S, m.spp, 0, 0, ""⟩] else []

/-- Modelled from the spec: the resolver's output axis sequence: declared
axes in metadata order (optionally squeezed), followed by the trailing
samples axis when samples-per-pixel exceeds one. -/
def resolveAxes (squeeze : Bool) (m : ImageMeta) : List DimensionDesc :=
  (if squeeze then squeezeAxes m.axes else m.axes) ++ sampleAxis m

/-- Modelled from the spec: a resolved Image Descriptor: axis sequence with
sizes and coordinate data, element type, samples per pixel, bound memory
blocks, timestamp sequence, and flattened attributes (always including the
image's full path). -/
structure LifImage where
  name : String
  path : String
  axes : List DimensionDesc
  bits : Nat
  itemsize : Nat
  spp : Nat
  blocks : List MemoryBlock
  timestamps : List Int
deriving DecidableEq, Repr

/-- Ordered axis labels of a resolved image. -/
def LifImage.dims (im : LifImage) : List Dim := im.axes.map (·.dim)

/-- Ordered axis sizes of a resolved image. -/
def LifImage.shape (im : LifImage) : List Nat := im.axes.map (·.size)

/-- Label-to-size mapping of a resolved image, in axis order. -/
def LifImage.sizes (im : LifImage) : List (Dim × Nat) :=
  im.axes.map (fun a => (a.dim, a.size))

/-- Total byte size of a resolved image's pixel data. -/
def LifImage.nbytes (im : LifImage) : Nat := im.shape.prod * im.itemsize

/-- Modelled from the spec: per-axis coordinate arrays keyed by axis label;
the channel axis and the samples axis are excluded from default coordinate
computation. -/
def LifImage.coords (im : LifImage) : List (Dim × List Rat) :=
  (im.axes.filter (fun a => decide (a.dim ≠ Dim.C ∧ a.dim ≠ Dim.S))).map
    (fun a => (a.dim, a.coordArray))

/-- Size of a given axis label in a resolved image, if present. -/
def LifImage.sizeOfDim (im : LifImage) (d : Dim) : Option Nat :=
  (im.axes.find? (fun a => decide (a.dim = d))).map (·.size)

/-- Modelled from the spec: the Memory Block Binder matches each declared
block identifier to a block directory entry; an identifier absent from the
reachable directory is a `StructureError` naming the missing block id. -/
def bindBlocks (ids : List String) (dir : String → Option MemoryBlock) :
    Except LifError (List MemoryBlock) :=
  match ids with
  | [] => .ok []
  | id :: rest =>
    match dir id with
    | none => .error (.structureError ("memory block not found: " ++ id))
    | some b =>
      match bindBlocks rest dir with
      | .error e => .error e
      | .ok bs => .ok (b :: bs)

/-- Modelled from the spec: resolving an image binds its memory blocks and
checks the structural invariant that the bytes available across the bound
blocks equal the product of axis sizes times samples-per-pixel times
element byte width; a violation is a structural error, not silently
tolerated.  Zero-sized axes and a zero sample count are likewise structural
errors (an element count is at least one). -/
def resolveImage (squeeze : Bool) (m : ImageMeta)
    (dir : String → Option MemoryBlock) : Except LifError LifImage :=
  if m.axes.any (fun a => decide (a.size = 0)) then
    .error (.structureError "zero-sized axis")
  else if m.spp = 0 then
    .error (.structureError "zero samples per pixel")
  else
    (bindBlocks m.blockIds dir).bind (fun bs =>
      if (bs.map (·.size)).sum = metaNbytes m then
        .ok { name := m.name, path := m.path
              axes := resolveAxes squeeze m
              bits := m.bits, itemsize := m.itemsize, spp := m.spp
              blocks := bs, timestamps := m.timestamps }
      else .error (.structureError "memory block size mismatch"))

/-- Modelled from the spec: a node of the hierarchical textual markup
metadata document: tag, attributes, ordered children. -/
inductive XmlTree where
  | node (tag : String) (attrs : List (String × String))
      (children : List XmlTree)

/-- Tag of an XML node. -/
def XmlTree.tag : XmlTree → String
  | .node t _ _ => t

/-- Attributes of an XML node. -/
def XmlTree.attrs : XmlTree → List (String × String)
  | .node _ a _ => a

/-- Children of an XML node. -/
def XmlTree.children : XmlTree → List XmlTree
  | .node _ _ cs => cs

/-- Modelled from the spec: a node is classified as an image based on the
presence of an image-description child. -/
def hasImageDescription (children : List XmlTree) : Bool :=
  children.any (fun c => c.tag == "ImageDescription")

mutual

/-- Modelled from the spec: the tree walk recursively classifies each node
as folder or image and collects image nodes in document order. -/
def collectImages : XmlTree → List XmlTree
  | .node t a cs =>
    if hasImageDescription cs then [.node t a cs] else collectImagesList cs

/-- Document-order image collection over a forest of metadata nodes. -/
def collectImagesList : List XmlTree → List XmlTree
  | [] => []
  | c :: cs => collectImages c ++ collectImagesList cs

end

/-- Modelled from the spec: the container format version is read from the
root container-header element of the metadata document; when the document
is missing or its root element is not a valid container header, the
version is reported as the sentinel value 0. -/
def versionOf (xml : Option XmlTree) : Nat :=
  match xml with
  | none => 0
  | some t =>
    if t.tag == "LMSDataContainerHeader" then
      match (t.attrs.lookup "Version").bind String.toNat? with
      | some v => v
      | none => 0
    else 0

/-- Modelled from the spec: building the image collection from the
authoritative metadata document.  A missing or structurally invalid root
image element is non-fatal: the collection is empty and a warning is
emitted to the logging collaborator, never raised as an error. -/
def seriesOf (xml : Option XmlTree) : List XmlTree × List String :=
  match xml with
  | none => ([], ["failed to parse XML header"])
  | some t =>
    match collectImages t with
    | [] => ([], ["no XML image element found"])
    | imgs => (imgs, [])

/-- Modelled from the spec: the classified content of a scanned block:
kind (metadata or memory), identifier, payload bytes. -/
structure RawBlock where
  id : String
  isMemory : Bool
  payload : List Nat
deriving DecidableEq, Repr

/-- Modelled from the spec: the input to container open, at the granularity
the spec describes — whether the expected container signature is present at
offset 0, the sequence of classified blocks produced by the one-pass scan,
and the decoded authoritative metadata document (`none` when the markup is
undecodable). -/
structure RawStream where
  hasLifSignature : Bool
  blocks : List RawBlock
  xml : Option XmlTree

/-- Memory-block directory entries of a scanned stream, in scan order. -/
def memBlocksOf (f : RawStream) : List MemoryBlock :=
  (f.blocks.filter (·.isMemory)).map (fun b => ⟨b.id, b.payload⟩)

/-- Modelled from the spec: a file without the container signature is still
accepted as a companion single-image file variant when the scan found
exactly one memory block and no metadata block. -/
def companionFallback (f : RawStream) : Bool :=
  (f.blocks.filter (·.isMemory)).length == 1
    && (f.blocks.filter (fun b => !b.isMemory)).length == 0

/-- Modelled from the spec: an opened container: format variant flag,
format version, memory block directory, image collection, and warnings
emitted to the logging collaborator during open. -/
structure LifContainer where
  isLof : Bool
  version : Nat
  memoryBlocks : List MemoryBlock
  images : List XmlTree
  warnings : List String

/-- Modelled from the spec: construct a container from a scanned stream:
version and image collection come from the metadata document, the block
directory from the scan. -/
def buildContainer (isLof : Bool) (f : RawStream) : LifContainer :=
  let s := seriesOf f.xml
  { isLof := isLof, version := versionOf f.xml
    memoryBlocks := memBlocksOf f
    images := s.1, warnings := s.2 }

/-- Modelled from the spec: the valid open modes: read-only and
read-write-shared. -/
def validMode (mode : String) : Bool :=
  mode == "r" || mode == "r+b"

/-- Modelled from the spec: container open: an invalid mode value is a
`ValueError` at open time, before any scanning; a file lacking the expected
signature at offset 0, and not matching the single-memory-block companion
fallback, is a `FormatError` before any metadata is exposed. -/
def openLif (mode : String) (f : RawStream) : Except LifError LifContainer :=
  if !validMode mode then
    .error (.valueError "invalid mode")
  else if f.hasLifSignature then
    .ok (buildContainer false f)
  else if companionFallback f then
    .ok (buildContainer true f)
  else
    .error (.formatError "not a LIF file")

/-- Modelled from the spec: the Array Materializer's fill step reads the
exact byte span of the bound memory block(s), in order.  Sub-byte bit-depth
unpacking is outside the modelled fragment (its packing rule is an open
question in the spec). -/
def fillData (im : LifImage) : List Nat :=
  (im.blocks.map MemoryBlock.read).flatten

/-- Modelled from the spec: the caller-selected output policy: fresh
in-memory buffer, caller-supplied buffer (with its shape), memory-mapped
temporary file, memory-mapped file in a named directory, or a caller-named
file. -/
inductive OutPolicy where
  | new
  | buffer (contents : List Nat) (shape : List Nat)
  | memmapTemp
  | memmapDir (dir : String)
  | toFile (name : String)

/-- Overwrite the front of a destination buffer with the given data,
keeping the destination's length. -/
def writeInto (buf data : List Nat) : List Nat :=
  data.take buf.length ++ buf.drop data.length

/-- A fresh zero-initialized destination sized to the image's byte count,
as allocated for fresh-buffer and memory-mapped outputs. -/
def newBuffer (im : LifImage) : List Nat :=
  List.replicate im.nbytes 0

/-- Modelled from the spec: materialization under an output policy: fresh
buffers and memory-mapped destinations are allocated at the image's full
byte size and filled; a caller buffer is filled in place, and a shape
mismatch is a `ValueError`, not a silent reshape. -/
def materializeOut (im : LifImage) (p : OutPolicy) :
    Except LifError (List Nat) :=
  match p with
  | .new => .ok (writeInto (newBuffer im) (fillData im))
  | .buffer contents shape =>
    if shape = im.shape then .ok (writeInto contents (fillData im))
    else .error (.valueError "buffer shape mismatch")
  | .memmapTemp => .ok (writeInto (newBuffer im) (fillData im))
  | .memmapDir _ => .ok (writeInto (newBuffer im) (fillData im))
  | .toFile _ => .ok (writeInto (newBuffer im) (fillData im))

/-- Split a flat sample-interleaved buffer into its per-pixel groups of
`s` samples. -/
def toPixels : Nat → List Nat → List (List Nat)
  | _, [] => []
  | 0, l => [l]
  | s + 1, x :: xs => ((x :: xs).take (s + 1)) :: toPixels (s + 1) (xs.drop s)
termination_by _ l => l.length
decreasing_by
  simp only [List.length_cons, List.length_drop]
  omega

/-- Modelled from the spec: optional RGB reordering reverses the trailing
samples axis of the materialized buffer; it is a pure post-processing
reorder, never a re-read. -/
def asrgbReorder (s : Nat) (data : List Nat) : List Nat :=
  ((toPixels s data).map List.reverse).flatten

/-- Samples-per-pixel of a resolved image, as used by the RGB reorder. -/
def samplesOf (im : LifImage) : Nat := im.spp

/-- Modelled from the spec: plain-array materialization: the fill step into
a fresh buffer, followed by the optional RGB reorder of the samples axis. -/
def asarrayData (im : LifImage) (asrgb : Bool) : List Nat :=
  if asrgb then asrgbReorder (samplesOf im) (fillData im) else fillData im

/-- Per-sample-channel sums of a flat sample-interleaved buffer with `s`
samples per pixel. -/
def channelSums (s : Nat) (data : List Nat) : List Nat :=
  (List.range s).map
    (fun i => ((toPixels s data).map (fun p => p.getD i 0)).sum)

/-- Modelled from the spec: per-frame lazy iteration is unimplemented and
fails with a clearly named not-supported condition for every image, rather
than returning an empty or partial sequence. -/
def frames : LifImage → Except LifError (List (List Nat)) :=
  fun _ => .error (.notSupported "frames is not supported")

/-- Modelled from the spec: the labeled multi-dimensional array handed to
downstream adapters: name, axis labels, shape, element byte width,
attributes, per-axis coordinate arrays, and the pixel data. -/
structure DataArray where
  name : String
  dims : List Dim
  shape : List Nat
  itemsize : Nat
  attrs : List (String × String)
  coords : List (Dim × List Rat)
  data : List Nat
deriving DecidableEq, Repr

/-- Modelled from the spec: the flattened attribute mapping of an image,
always including the image's full path. -/
def LifImage.attrs (im : LifImage) : List (String × String) :=
  [("path", im.path)]

/-- Modelled from the spec: labeled-array materialization: materializes the
pixel data exactly as the plain-array path does and labels it with the
image's name, axis labels, shape, element width, attributes, and per-axis
coordinate arrays. -/
def asxarray (im : LifImage) (asrgb : Bool) : DataArray :=
  { name := im.name, dims := im.dims, shape := im.shape
    itemsize := im.itemsize, attrs := im.attrs
    coords := im.coords, data := asarrayData im asrgb }

/-- Per-axis coordinate arrays of an axis sequence, keyed by axis label;
channel and samples axes are excluded, matching the resolver's default
coordinate computation. -/
def coordsOfAxes (axes : List DimensionDesc) : List (Dim × List Rat) :=
  (axes.filter (fun a => decide (a.dim ≠ Dim.C ∧ a.dim ≠ Dim.S))).map
    (fun a => (a.dim, a.coordArray))

/-- Declared axes of the XYZT image of the scan-modes container: T:7, Z:5,
C:2, Y:128, X:128 in metadata order, as asserted by the test suite (the
physical origins and lengths are placeholders; only labels, order and
sizes are recorded by the tests). -/
def xyztAxes : List DimensionDesc :=
  [⟨Dim.T, 7, 0, 1, "s"⟩, ⟨Dim.Z, 5, 0, 1, "m"⟩, ⟨Dim.C, 2, 0, 0, ""⟩,
   ⟨Dim.Y, 128, 0, 1, "m"⟩, ⟨Dim.X, 128, 0, 1, "m"⟩]

/-- The memory block bound to the XYZT image: identifier MemBlock_29, byte
length 1146880 (payload bytes are placeholders of the recorded length). -/
def xyztBlock : MemoryBlock := ⟨"MemBlock_29", List.replicate 1146880 0⟩

/-- Metadata of the XYZT image: uint8 elements, one sample per pixel, 70
recorded timestamps (instants are placeholders; only the count is recorded
by the tests). -/
def xyztMeta : ImageMeta :=
  { name := "XYZT", path := "XYZT", axes := xyztAxes, bits := 8
    itemsize := 1, spp := 1, blockIds := ["MemBlock_29"]
    timestamps := List.replicate 70 0 }

/-- Block directory of the scan-modes container, restricted to the block
the XYZT image binds. -/
def xyztDir : String → Option MemoryBlock :=
  fun id => if id = "MemBlock_29" then some xyztBlock else none

/-- The resolved XYZT image descriptor. -/
def xyztImage : LifImage :=
  { name := "XYZT", path := "XYZT", axes := xyztAxes, bits := 8
    itemsize := 1, spp := 1, blocks := [xyztBlock]
    timestamps := List.replicate 70 0 }

/-- Declared axes of the LOF companion image XYCST: T:2, M:4, C:3, Y:1200,
X:1600 in metadata order, as asserted by the test suite. -/
def lofAxes : List DimensionDesc :=
  [⟨Dim.T, 2, 0, 1, "s"⟩, ⟨Dim.M, 4, 0, 1, ""⟩, ⟨Dim.C, 3, 0, 0, ""⟩,
   ⟨Dim.Y, 1200, 0, 1, "m"⟩, ⟨Dim.X, 1600, 0, 1, "m"⟩]

/-- The memory block bound to the LOF image: identifier MemBlock_1199, byte
length 46080000. -/
def lofBlock : MemoryBlock := ⟨"MemBlock_1199", List.replicate 46080000 0⟩

/-- Metadata of the LOF image XYCST: uint8 elements, one sample per pixel,
24 recorded timestamps. -/
def lofMeta : ImageMeta :=
  { name := "XYCST", path := "XYCST", axes := lofAxes, bits := 8
    itemsize := 1, spp := 1, blockIds := ["MemBlock_1199"]
    timestamps := List.replicate 24 0 }

/-- Block directory of the LOF companion file. -/
def lofDir : String → Option MemoryBlock :=
  fun id => if id = "MemBlock_1199" then some lofBlock else none

/-- The resolved LOF image descriptor. -/
def lofImage : LifImage :=
  { name := "XYCST", path := "XYCST", axes := lofAxes, bits := 8
    itemsize := 1, spp := 1, blocks := [lofBlock]
    timestamps := List.replicate 24 0 }

/-- Modelled from the spec: a metadata document is defective when it is
undecodable, or when it decodes but its root is not a valid container
header and no image element is found anywhere in it. -/
def metadataDefective (f : RawStream) : Bool :=
  match f.xml with
  | none => true
  | some t =>
    !(t.tag == "LMSDataContainerHeader") && (collectImages t).isEmpty

/-- A defective companion single-image file: one memory block, no metadata
block, and a decoded metadata document whose root is a bare data element
with no image element, mirroring the defective LOF file of the test
suite. -/
def defectiveStream : RawStream :=
  { hasLifSignature := false
    blocks := [⟨"MemBlock_0", true, List.replicate 8 0⟩]
    xml := some (.node "Data" [] []) }

/-- A stream with no container signature, no blocks, and no decodable
metadata: not a container at all. -/
def notLifStream : RawStream :=
  { hasLifSignature := false, blocks := [], xml := none }

/-- A small two-by-three single-channel image used as a concrete instance
for materialization properties. -/
def tinyImage : LifImage :=
  { name := "tiny", path := "tiny"
    axes := [⟨Dim.Y, 2, 0, 1, "m"⟩, ⟨Dim.X, 3, 0, 1, "m"⟩]
    bits := 8, itemsize := 1, spp := 1
    blocks := [⟨"b0", [1, 2, 3, 4, 5, 6]⟩]
    timestamps := [] }

/-- Metadata producing `tinyImage`. -/
def tinyMeta : ImageMeta :=
  { name := "tiny", path := "tiny"
    axes := [⟨Dim.Y, 2, 0, 1, "m"⟩, ⟨Dim.X, 3, 0, 1, "m"⟩]
    bits := 8, itemsize := 1, spp := 1, blockIds := ["b0"]
    timestamps := [] }

/-- Block directory for the small image. -/
def tinyDir : String → Option MemoryBlock :=
  fun id => if id = "b0" then some ⟨"b0", [1, 2, 3, 4, 5, 6]⟩ else none

/-- A small RGB image: two pixels of three samples each, stored
sample-interleaved. -/
def rgbImage : LifImage :=
  { name := "rgb", path := "rgb"
    axes := [⟨Dim.Y, 1, 0, 1, "m"⟩, ⟨Dim.X, 2, 0, 1, "m"⟩]
    bits := 8, itemsize := 1, spp := 3
    blocks := [⟨"b1", [1, 2, 3, 4, 5, 6]⟩]
    timestamps := [] }

/-- Axis sequence refuting the universal squeeze claim: a size-1 axis N
outside the innermost two together with a size-1 axis Y among the
innermost two. -/
def squeezeCexMeta : ImageMeta :=
  { name := "cex", path := "cex"
    axes := [⟨Dim.N, 1, 0, 1, ""⟩, ⟨Dim.Y, 1, 0, 1, "m"⟩,
             ⟨Dim.X, 4, 0, 1, "m"⟩]
    bits := 8, itemsize := 1, spp := 1, blockIds := [], timestamps := [] }

theorem except_bind_ok {ε α β : Type} (a : α) (g : α → Except ε β) :
    Except.bind (Except.ok a) g = g a := rfl

theorem prod_filter_sizes (l : List DimensionDesc)
    (h : ∀ a ∈ l, a.size ≠ 0) :
    ((l.filter (fun a => decide (1 < a.size))).map (·.size)).prod
      = (l.map (·.size)).prod := by
  induction l with
  | nil => rfl
  | cons a l ih =>
    have ha : a.size ≠ 0 := h a (by simp)
    have hl : ∀ b ∈ l, b.size ≠ 0 := fun b hb => h b (by simp [hb])
    by_cases hsz : 1 < a.size
    · simp [List.filter_cons, hsz, ih hl]
    · have h1 : a.size = 1 := by omega
      simp [List.filter_cons, hsz, h1, ih hl]

theorem prod_squeezeAxes (l : List DimensionDesc)
    (h : ∀ a ∈ l, a.size ≠ 0) :
    ((squeezeAxes l).map (·.size)).prod = (l.map (·.size)).prod := by
  have htake : ∀ a ∈ l.take (l.length - 2), a.size ≠ 0 :=
    fun a ha => h a (List.take_subset _ _ ha)
  rw [squeezeAxes, List.map_append, List.prod_append,
    prod_filter_sizes _ htake, ← List.prod_append, ← List.map_append,
    List.take_append_drop]

theorem prod_sampleAxis (m : ImageMeta) (h : m.spp ≠ 0) :
    ((sampleAxis m).map (·.size)).prod = m.spp := by
  rw [sampleAxis]
  by_cases h1 : 1 < m.spp
  · simp [h1]
  · have h2 : m.spp = 1 := by omega
    simp [h1, h2]

theorem prod_resolveAxes (sq : Bool) (m : ImageMeta)
    (h0 : ∀ a ∈ m.axes, a.size ≠ 0) (h1 : m.spp ≠ 0) :
    ((resolveAxes sq m).map (·.size)).prod
      = (m.axes.map (·.size)).prod * m.spp := by
  rw [resolveAxes, List.map_append, List.prod_append, prod_sampleAxis m h1]
  cases sq with
  | true => rw [if_pos rfl, prod_squeezeAxes _ h0]
  | false => rfl

/-- C1: For every resolved Image Descriptor of an opened container, the sum
of the byte lengths of its bound memory block(s) equals the product of its
axis sizes times samples-per-pixel times element byte width. -/
theorem resolved_image_block_size_invariant (sq : Bool) (m : ImageMeta)
    (dir : String → Option MemoryBlock) (im : LifImage)
    (h : resolveImage sq m dir = Except.ok im) :
    (im.blocks.map MemoryBlock.size).sum = im.nbytes ∧
    im.nbytes = metaNbytes m := by
  rw [resolveImage] at h
  split at h
  · simp at h
  · split at h
    next hspp =>
      simp at h
    next hzero hspp =>
      have h0 : ∀ a ∈ m.axes, a.size ≠ 0 := by
        intro a ha
        simp only [List.any_eq_true, decide_eq_true_eq, not_exists,
          not_and] at hzero
        exact hzero a ha
      cases hb : bindBlocks m.blockIds dir with
      | error e => rw [hb] at h; simp [Except.bind] at h
      | ok bs =>
        rw [hb, except_bind_ok] at h
        split at h
        next hsum =>
          injection h with h
          subst h
          have h2 : (LifImage.mk m.name m.path (resolveAxes sq m) m.bits
              m.itemsize m.spp bs m.timestamps).nbytes = metaNbytes m := by
            show ((resolveAxes sq m).map (·.size)).prod * m.itemsize
              = metaNbytes m
            rw [prod_resolveAxes sq m h0 hspp, metaNbytes]
          exact ⟨by rw [show (LifImage.mk m.name m.path (resolveAxes sq m)
            m.bits m.itemsize m.spp bs m.timestamps).blocks = bs from rfl,
            hsum, h2], h2⟩
        next hsum =>
          simp at h

/-- Witness for C1 at a concrete resolved image. -/
theorem resolved_image_block_size_invariant_witness :
    ∃ im, resolveImage false tinyMeta tinyDir = Except.ok im ∧
      (im.blocks.map MemoryBlock.size).sum = im.nbytes ∧
      im.nbytes = metaNbytes tinyMeta := by
  refine ⟨tinyImage, ?_, ?_⟩
  · rfl
  · exact resolved_image_block_size_invariant false tinyMeta tinyDir
      tinyImage rfl

theorem xyzt_resolves :
    resolveImage false xyztMeta xyztDir = Except.ok xyztImage := by
  have hb : bindBlocks xyztMeta.blockIds xyztDir = Except.ok [xyztBlock] := rfl
  have hsum : ([xyztBlock].map MemoryBlock.size).sum = metaNbytes xyztMeta := by
    simp only [List.map_cons, List.map_nil, List.sum_cons, List.sum_nil,
      MemoryBlock.size, xyztBlock, List.length_replicate, metaNbytes,
      xyztMeta, xyztAxes, List.prod_cons, List.prod_nil]
    norm_num
  rw [resolveImage, if_neg (by decide), if_neg (by decide), hb,
    except_bind_ok, if_pos hsum]
  rfl

theorem lof_resolves :
    resolveImage false lofMeta lofDir = Except.ok lofImage := by
  have hb : bindBlocks lofMeta.blockIds lofDir = Except.ok [lofBlock] := rfl
  have hsum : ([lofBlock].map MemoryBlock.size).sum = metaNbytes lofMeta := by
    simp only [List.map_cons, List.map_nil, List.sum_cons, List.sum_nil,
      MemoryBlock.size, lofBlock, List.length_replicate, metaNbytes,
      lofMeta, lofAxes, List.prod_cons, List.prod_nil]
    norm_num
  rw [resolveImage, if_neg (by decide), if_neg (by decide), hb,
    except_bind_ok, if_pos hsum]
  rfl

/-- C2: For a container holding one image whose declared axes are T:7, Z:5,
C:2, Y:128, X:128 with uint8 elements, the resolver produces dims
(T,Z,C,Y,X) in acquisition/storage order, shape (7,5,2,128,128), and total
byte size 7*5*2*128*128 = 1146880. -/
theorem xyzt_resolver_dims_shape_nbytes :
    ∃ im, resolveImage false xyztMeta xyztDir = Except.ok im ∧
      im.dims = [Dim.T, Dim.Z, Dim.C, Dim.Y, Dim.X] ∧
      im.shape = [7, 5, 2, 128, 128] ∧
      im.itemsize = 1 ∧
      im.nbytes = 1146880 ∧
      1146880 = 7 * 5 * 2 * 128 * 128 := by
  refine ⟨xyztImage, xyzt_resolves, ?_, ?_, rfl, ?_, by norm_num⟩
  · rfl
  · rfl
  · simp only [LifImage.nbytes, LifImage.shape, xyztImage, xyztAxes,
      List.map_cons, List.map_nil, List.prod_cons, List.prod_nil]
    norm_num

/-- C9: an image's timestamp sequence length is independent of, and may
exceed, its T axis size: the XYZT image has T size 7 but 70 timestamps,
and the LOF image has T size 2 but 24 timestamps. -/
theorem timestamps_independent_of_t_size :
    ∃ im1 im2, resolveImage false xyztMeta xyztDir = Except.ok im1 ∧
      resolveImage false lofMeta lofDir = Except.ok im2 ∧
      im1.timestamps.length = 70 ∧ im1.sizeOfDim Dim.T = some 7 ∧ 7 < 70 ∧
      im2.timestamps.length = 24 ∧ im2.sizeOfDim Dim.T = some 2 ∧ 2 < 24 := by
  refine ⟨xyztImage, lofImage, xyzt_resolves, lof_resolves, ?_, ?_, by
    norm_num, ?_, ?_, by norm_num⟩
  · simp only [xyztImage, List.length_replicate]
  · rfl
  · simp only [lofImage, List.length_replicate]
  · rfl

/-- C3: opening a file that lacks the container signature (and is not a
single-memory-block companion file) is a `FormatError`, and opening with an
invalid mode value is a `ValueError`; in both cases open returns an error,
so no image is exposed, and the invalid-mode error is independent of the
file's content (it is raised before any scanning). -/
theorem open_rejects_bad_signature_and_bad_mode (mode : String)
    (f : RawStream) :
    (validMode mode = false →
      openLif mode f = Except.error (LifError.valueError "invalid mode")) ∧
    (validMode mode = true → f.hasLifSignature = false →
      companionFallback f = false →
      openLif mode f = Except.error (LifError.formatError "not a LIF file")) := by
  constructor
  · intro h
    simp [openLif, h]
  · intro h1 h2 h3
    simp [openLif, h1, h2, h3]

/-- Witness for C3: an invalid mode is rejected on any stream, and a
signatureless non-companion stream is rejected under a valid mode. -/
theorem open_rejects_bad_signature_and_bad_mode_witness :
    validMode "abc" = false ∧
    openLif "abc" notLifStream
      = Except.error (LifError.valueError "invalid mode") ∧
    validMode "r" = true ∧ notLifStream.hasLifSignature = false ∧
    companionFallback notLifStream = false ∧
    openLif "r" notLifStream
      = Except.error (LifError.formatError "not a LIF file") := by
  refine ⟨rfl, ?_, rfl, rfl, rfl, ?_⟩
  · exact (open_rejects_bad_signature_and_bad_mode "abc" notLifStream).1 rfl
  · exact (open_rejects_bad_signature_and_bad_mode "r" notLifStream).2
      rfl rfl rfl

theorem buildContainer_defective (b : Bool) (f : RawStream)
    (hdef : metadataDefective f = true) :
    (buildContainer b f).images = [] ∧ (buildContainer b f).version = 0 ∧
    (buildContainer b f).warnings ≠ [] ∧
    (buildContainer b f).memoryBlocks = memBlocksOf f := by
  rw [metadataDefective] at hdef
  cases hx : f.xml with
  | none =>
    rw [hx] at hdef
    refine ⟨?_, ?_, ?_, rfl⟩
    · simp [buildContainer, seriesOf, hx]
    · simp [buildContainer, versionOf, hx]
    · simp [buildContainer, seriesOf, hx]
  | some t =>
    rw [hx] at hdef
    rw [Bool.and_eq_true, Bool.not_eq_true', List.isEmpty_iff] at hdef
    obtain ⟨htag, hcoll⟩ := hdef
    refine ⟨?_, ?_, ?_, rfl⟩
    · simp [buildContainer, seriesOf, hx, hcoll]
    · simp [buildContainer, versionOf, hx, htag]
    · simp [buildContainer, seriesOf, hx, hcoll]

/-- C4: for an openable container whose metadata is defective (undecodable,
or decodable with no valid container-header root and no image element),
opening succeeds without raising: the image collection is empty, the format
version is the sentinel 0, a warning is emitted to the logger, the scanned
memory blocks remain accessible, and a raw memory-block read returns the
declared byte length. -/
theorem defective_metadata_open_degrades (f : RawStream)
    (hopen : f.hasLifSignature = true ∨ companionFallback f = true)
    (hdef : metadataDefective f = true) :
    ∃ c, openLif "r" f = Except.ok c ∧ c.images = [] ∧ c.version = 0 ∧
      c.warnings ≠ [] ∧ c.memoryBlocks = memBlocksOf f ∧
      ∀ b ∈ c.memoryBlocks, b.read.length = b.size := by
  cases hsig : f.hasLifSignature with
  | true =>
    refine ⟨buildContainer false f, ?_, ?_⟩
    · simp [openLif, validMode, hsig]
    · obtain ⟨h1, h2, h3, h4⟩ := buildContainer_defective false f hdef
      exact ⟨h1, h2, h3, h4, fun b _ => rfl⟩
  | false =>
    have hcomp : companionFallback f = true := by
      cases hopen with
      | inl h => rw [h] at hsig; cases hsig
      | inr h => exact h
    refine ⟨buildContainer true f, ?_, ?_⟩
    · simp [openLif, validMode, hsig, hcomp]
    · obtain ⟨h1, h2, h3, h4⟩ := buildContainer_defective true f hdef
      exact ⟨h1, h2, h3, h4, fun b _ => rfl⟩

/-- Witness for C4 at a concrete defective companion stream. -/
theorem defective_metadata_open_degrades_witness :
    (defectiveStream.hasLifSignature = true ∨
      companionFallback defectiveStream = true) ∧
    metadataDefective defectiveStream = true ∧
    (∃ c, openLif "r" defectiveStream = Except.ok c ∧ c.images = [] ∧
      c.version = 0 ∧ c.warnings ≠ [] ∧
      c.memoryBlocks = memBlocksOf defectiveStream ∧
      ∀ b ∈ c.memoryBlocks, b.read.length = b.size) :=
  ⟨Or.inr rfl, rfl,
    defective_metadata_open_degrades defectiveStream (Or.inr rfl) rfl⟩

/-- C8: for every image, requesting per-frame lazy iteration fails with a
clearly named not-supported condition rather than returning an empty or
partial sequence. -/
theorem frames_not_supported (im : LifImage) :
    frames im
      = Except.error (LifError.notSupported "frames is not supported") :=
  rfl

/-- C10: the labeled-array materialization agrees with the plain-array
materialization: its underlying data equals the plain array, and its name,
element width, dims, shape, attrs, and per-axis coordinate arrays equal the
image's corresponding properties. -/
theorem asxarray_refines_asarray (im : LifImage) (asrgb : Bool) :
    (asxarray im asrgb).data = asarrayData im asrgb ∧
    (asxarray im asrgb).name = im.name ∧
    (asxarray im asrgb).itemsize = im.itemsize ∧
    (asxarray im asrgb).dims = im.dims ∧
    (asxarray im asrgb).shape = im.shape ∧
    (asxarray im asrgb).attrs = im.attrs ∧
    (asxarray im asrgb).coords = im.coords ∧
    ∀ d arr, (d, arr) ∈ (asxarray im asrgb).coords → (d, arr) ∈ im.coords :=
  ⟨rfl, rfl, rfl, rfl, rfl, rfl, rfl, fun _ _ h => h⟩

theorem fillData_length (im : LifImage) :
    (fillData im).length = (im.blocks.map MemoryBlock.size).sum := by
  rw [fillData, List.length_flatten, List.map_map]
  rfl

theorem writeInto_exact (buf data : List Nat) (h : buf.length = data.length) :
    writeInto buf data = data := by
  rw [writeInto, h, List.take_length, ← h, List.drop_length, List.append_nil]

/-- C5: materializing the same Image Descriptor under each output policy —
fresh in-memory buffer, caller-supplied buffer of matching shape,
memory-mapped temporary file, memory-mapped file in a named directory, and
caller-named file — yields byte-identical pixel data in every case. -/
theorem materialize_policies_byte_identical (im : LifImage) (buf : List Nat)
    (dirName fileName : String)
    (hres : (im.blocks.map MemoryBlock.size).sum = im.nbytes)
    (hbuf : buf.length = im.nbytes) :
    materializeOut im OutPolicy.new = Except.ok (fillData im) ∧
    materializeOut im (OutPolicy.buffer buf im.shape)
      = Except.ok (fillData im) ∧
    materializeOut im OutPolicy.memmapTemp = Except.ok (fillData im) ∧
    materializeOut im (OutPolicy.memmapDir dirName)
      = Except.ok (fillData im) ∧
    materializeOut im (OutPolicy.toFile fileName)
      = Except.ok (fillData im) := by
  have hfill : (fillData im).length = im.nbytes := by
    rw [fillData_length, hres]
  have hnew : writeInto (newBuffer im) (fillData im) = fillData im :=
    writeInto_exact _ _ (by rw [newBuffer, List.length_replicate, hfill])
  have hb : writeInto buf (fillData im) = fillData im :=
    writeInto_exact _ _ (by rw [hbuf, hfill])
  refine ⟨?_, ?_, ?_, ?_, ?_⟩ <;> simp [materializeOut, hnew, hb]

/-- Witness for C5 at a concrete resolved image with a matching caller
buffer. -/
theorem materialize_policies_byte_identical_witness :
    (tinyImage.blocks.map MemoryBlock.size).sum = tinyImage.nbytes ∧
    ([9, 9, 9, 9, 9, 9] : List Nat).length = tinyImage.nbytes ∧
    (materializeOut tinyImage OutPolicy.new
        = Except.ok (fillData tinyImage) ∧
      materializeOut tinyImage
          (OutPolicy.buffer [9, 9, 9, 9, 9, 9] tinyImage.shape)
        = Except.ok (fillData tinyImage) ∧
      materializeOut tinyImage OutPolicy.memmapTemp
        = Except.ok (fillData tinyImage) ∧
      materializeOut tinyImage (OutPolicy.memmapDir "dir")
        = Except.ok (fillData tinyImage) ∧
      materializeOut tinyImage (OutPolicy.toFile "file")
        = Except.ok (fillData tinyImage)) :=
  ⟨rfl, rfl, materialize_policies_byte_identical tinyImage
    [9, 9, 9, 9, 9, 9] "dir" "file" rfl rfl⟩

/-- Counterexample to C6 as stated: for the axis sequence N:1, Y:1, X:4 —
which contains the size-1 axis N outside the innermost two — squeeze does
not remove exactly the size-1 axes: the size-1 axis Y among the innermost
two is kept, because the innermost two axes are never removed. -/
theorem squeeze_removes_exactly_size1_counterexample :
    (∃ a ∈ squeezeCexMeta.axes.take (squeezeCexMeta.axes.length - 2),
      a.size = 1) ∧
    (resolveAxes true squeezeCexMeta).map (·.dim)
      ≠ (squeezeCexMeta.axes.filter (fun a => decide (1 < a.size))).map
          (·.dim) := by
  constructor
  · exact ⟨⟨Dim.N, 1, 0, 1, ""⟩, by decide, rfl⟩
  · decide

/-- C6 amended: for any image (with no trailing samples axis) whose axis
sequence contains a size-1 axis other than the innermost two, and whose
innermost two axes are not themselves of size 1, enabling squeeze removes
exactly the size-1 axes and leaves the remaining axes — including their
coordinate data — unchanged; with squeeze disabled all declared axes,
including size-1 axes, are kept. -/
theorem squeeze_removes_exactly_size1_amended (m : ImageMeta)
    (hspp : m.spp ≤ 1)
    (hlast : ∀ a ∈ m.axes.drop (m.axes.length - 2), 1 < a.size)
    (hex : ∃ a ∈ m.axes.take (m.axes.length - 2), a.size = 1) :
    resolveAxes true m = m.axes.filter (fun a => decide (1 < a.size)) ∧
    resolveAxes false m = m.axes ∧
    ∀ p ∈ coordsOfAxes (resolveAxes true m),
      p ∈ coordsOfAxes (resolveAxes false m) := by
  have hsa : sampleAxis m = [] := by
    rw [sampleAxis, if_neg (by omega)]
  have h1 : resolveAxes true m
      = m.axes.filter (fun a => decide (1 < a.size)) := by
    rw [resolveAxes, hsa, List.append_nil, if_pos rfl, squeezeAxes]
    have hd : (m.axes.drop (m.axes.length - 2)).filter
        (fun a => decide (1 < a.size)) = m.axes.drop (m.axes.length - 2) :=
      List.filter_eq_self.mpr (fun a ha => decide_eq_true (hlast a ha))
    conv_rhs => rw [← List.take_append_drop (m.axes.length - 2) m.axes]
    rw [List.filter_append, hd]
  have h2 : resolveAxes false m = m.axes := by
    rw [resolveAxes, hsa, List.append_nil, if_neg (by simp)]
  refine ⟨h1, h2, ?_⟩
  rw [h1, h2]
  intro p hp
  have hsub : List.Sublist
      (coordsOfAxes (m.axes.filter (fun a => decide (1 < a.size))))
      (coordsOfAxes m.axes) := by
    rw [coordsOfAxes, coordsOfAxes]
    exact ((List.filter_sublist m.axes).filter _).map _
  exact hsub.subset hp

/-- An axis sequence satisfying the amended squeeze property's hypotheses:
a size-1 axis T outside the innermost two, innermost two axes larger than
size 1. -/
def squeezeOkMeta : ImageMeta :=
  { name := "sq", path := "sq"
    axes := [⟨Dim.T, 1, 0, 1, "s"⟩, ⟨Dim.Y, 2, 0, 1, "m"⟩,
             ⟨Dim.X, 4, 0, 1, "m"⟩]
    bits := 8, itemsize := 1, spp := 1, blockIds := [], timestamps := [] }

/-- Witness for the amended C6 at a concrete axis sequence. -/
theorem squeeze_removes_exactly_size1_amended_witness :
    squeezeOkMeta.spp ≤ 1 ∧
    (∀ a ∈ squeezeOkMeta.axes.drop (squeezeOkMeta.axes.length - 2),
      1 < a.size) ∧
    (∃ a ∈ squeezeOkMeta.axes.take (squeezeOkMeta.axes.length - 2),
      a.size = 1) ∧
    (resolveAxes true squeezeOkMeta
        = squeezeOkMeta.axes.filter (fun a => decide (1 < a.size)) ∧
      resolveAxes false squeezeOkMeta = squeezeOkMeta.axes ∧
      ∀ p ∈ coordsOfAxes (resolveAxes true squeezeOkMeta),
        p ∈ coordsOfAxes (resolveAxes false squeezeOkMeta)) :=
  ⟨by decide, by decide, by decide,
    squeeze_removes_exactly_size1_amended squeezeOkMeta (by decide)
      (by decide) (by decide)⟩

theorem map_range_reverse {α : Type} (g : Nat → α) (s : Nat) :
    ((List.range s).map g).reverse
      = (List.range s).map (fun i => g (s - 1 - i)) := by
  apply List.ext_getElem
  · simp
  · intro i h1 h2
    simp only [List.getElem_reverse, List.getElem_map, List.getElem_range,
      List.length_map, List.length_range]

theorem flatten_toPixels : ∀ (s : Nat) (d : List Nat),
    (toPixels s d).flatten = d
  | _, [] => by simp only [toPixels, List.flatten_nil]
  | 0, x :: xs => by simp [toPixels]
  | s + 1, x :: xs => by
    rw [toPixels, List.flatten_cons, flatten_toPixels (s + 1) (xs.drop s)]
    rw [show xs.drop s = (x :: xs).drop (s + 1) from rfl,
      List.take_append_drop]
termination_by _ d => d.length
decreasing_by
  simp only [List.length_cons, List.length_drop]
  omega

theorem toPixels_uniform : ∀ (s : Nat) (d : List Nat), s ∣ d.length →
    ∀ p ∈ toPixels s d, p.length = s
  | s, [], _ => by
    intro p hp
    simp only [toPixels, List.not_mem_nil] at hp
  | 0, x :: xs, hdvd => by
    intro p hp
    have h0 : (x :: xs).length = 0 := Nat.eq_zero_of_zero_dvd hdvd
    simp only [List.length_cons] at h0
    omega
  | s + 1, x :: xs, hdvd => by
    intro p hp
    rw [toPixels] at hp
    have hlen : s + 1 ≤ (x :: xs).length := Nat.le_of_dvd (by simp) hdvd
    rcases List.mem_cons.mp hp with h | h
    · subst h
      rw [List.length_take]
      simp only [List.length_cons] at hlen ⊢
      omega
    · have hd2 : (s + 1) ∣ (xs.drop s).length := by
        have he : (xs.drop s).length = (x :: xs).length - (s + 1) := by
          simp only [List.length_drop, List.length_cons]
          omega
        rw [he]
        exact Nat.dvd_sub' hdvd dvd_rfl
      exact toPixels_uniform (s + 1) (xs.drop s) hd2 p h
termination_by _ d => d.length
decreasing_by
  simp only [List.length_cons, List.length_drop]
  omega

theorem toPixels_flatten_uniform (s : Nat) (hs : 0 < s) :
    ∀ (P : List (List Nat)), (∀ p ∈ P, p.length = s) →
      toPixels s P.flatten = P := by
  intro P
  induction P with
  | nil =>
    intro _
    simp only [List.flatten_nil, toPixels]
  | cons p P ih =>
    intro h
    have hp : p.length = s := h p (by simp)
    have hP : ∀ q ∈ P, q.length = s := fun q hq => h q (by simp [hq])
    obtain ⟨t, rfl⟩ : ∃ t, s = t + 1 := ⟨s - 1, by omega⟩
    obtain ⟨y, ys, rfl⟩ : ∃ y ys, p = y :: ys := by
      cases p with
      | nil => simp at hp
      | cons a as => exact ⟨a, as, rfl⟩
    rw [List.flatten_cons, List.cons_append, toPixels]
    congr 1
    · rw [← List.cons_append, ← hp, List.take_left]
    · have hys : ys.length = t := by simpa using hp
      rw [show (ys ++ P.flatten).drop t = P.flatten by
        rw [← hys, List.drop_left]]
      exact ih hP

theorem channelSums_pixels_reverse (s : Nat) (P : List (List Nat))
    (h : ∀ p ∈ P, p.length = s) :
    (List.range s).map
        (fun i => ((P.map List.reverse).map (fun p => p.getD i 0)).sum)
      = ((List.range s).map
          (fun i => (P.map (fun p => p.getD i 0)).sum)).reverse := by
  rw [map_range_reverse]
  apply List.map_congr_left
  intro i hi
  rw [List.mem_range] at hi
  rw [List.map_map]
  apply congrArg List.sum
  apply List.map_congr_left
  intro p hp
  simp only [Function.comp_apply]
  have hplen : p.length = s := h p hp
  subst hplen
  rw [List.getD_eq_getElem _ _ (by simpa using hi),
    List.getD_eq_getElem _ _ (by omega), List.getElem_reverse]

theorem asrgb_data_level (s : Nat) (d : List Nat) (h1 : 0 < s)
    (hdvd : s ∣ d.length) :
    (asrgbReorder s d).length = d.length ∧
    channelSums s (asrgbReorder s d) = (channelSums s d).reverse := by
  have hu : ∀ p ∈ toPixels s d, p.length = s := toPixels_uniform s d hdvd
  constructor
  · rw [asrgbReorder, List.length_flatten, List.map_map]
    conv_rhs => rw [← flatten_toPixels s d, List.length_flatten]
    apply congrArg List.sum
    apply List.map_congr_left
    intro p _
    simp
  · rw [channelSums, channelSums, asrgbReorder]
    have hmr : toPixels s (((toPixels s d).map List.reverse).flatten)
        = (toPixels s d).map List.reverse := by
      apply toPixels_flatten_uniform s h1
      intro p hp
      rw [List.mem_map] at hp
      obtain ⟨q, hq, rfl⟩ := hp
      rw [List.length_reverse]
      exact hu q hq
    rw [hmr]
    exact channelSums_pixels_reverse s (toPixels s d) hu

/-- C7: for an image with a trailing samples axis of size `s`, reading with
RGB reorder enabled versus disabled yields arrays with identical element
counts whose per-sample-channel sums appear in reversed order; the reorder
is a pure post-processing permutation of the materialized buffer, never a
re-read. -/
theorem rgb_reorder_reverses_channel_sums (im : LifImage) (s : Nat)
    (hs : samplesOf im = s) (h1 : 0 < s)
    (hdvd : s ∣ (fillData im).length) :
    (asarrayData im true).length = (asarrayData im false).length ∧
    asarrayData im true = asrgbReorder s (asarrayData im false) ∧
    channelSums s (asarrayData im true)
      = (channelSums s (asarrayData im false)).reverse := by
  subst hs
  have hd := asrgb_data_level (samplesOf im) (fillData im) h1 hdvd
  have e1 : asarrayData im false = fillData im := by
    rw [asarrayData, if_neg (by simp)]
  have e2 : asarrayData im true
      = asrgbReorder (samplesOf im) (fillData im) := by
    rw [asarrayData, if_pos rfl]
  refine ⟨?_, ?_, ?_⟩
  · rw [e1, e2]
    exact hd.1
  · rw [e1, e2]
  · rw [e1, e2]
    exact hd.2

/-- Witness for C7 at a concrete two-pixel, three-sample RGB image. -/
theorem rgb_reorder_reverses_channel_sums_witness :
    samplesOf rgbImage = 3 ∧ 0 < 3 ∧ 3 ∣ (fillData rgbImage).length ∧
    ((asarrayData rgbImage true).length
        = (asarrayData rgbImage false).length ∧
      asarrayData rgbImage true
        = asrgbReorder 3 (asarrayData rgbImage false) ∧
      channelSums 3 (asarrayData rgbImage true)
        = (channelSums 3 (asarrayData rgbImage false)).reverse) :=
  ⟨rfl, by decide, by decide,
    rgb_reorder_reverses_channel_sums rgbImage 3 rfl (by decide) (by decide)⟩

end Liffile
